import Mathlib

/-!
Verification development for the Stacks-Chainhook webhook server
(`parseEventPayload`, the bounded in-memory event store, and the
`/webhook`, `/events`, `/stats` route handlers of the backend source).

The JavaScript source is shallowly embedded: JSON values are a tagged
tree (`Json`), per-field probing follows JavaScript truthiness and the
`||` operator, and runtime `TypeError`s thrown inside the normalizer are
modelled by an explicit error type (`JsError`) threaded through the
extraction, mirroring the source's single try/catch boundary.

Modelling notes (documented restrictions, none load-bearing for any
theorem below):
* JSON numbers are modelled as integers (`Int`); every numeric value
  appearing in the claims is an integer.
* String-to-number coercion (JavaScript `ToNumber`, used only when an
  object's `length` property is compared with `> 0`) is modelled for
  optionally-signed decimal integer literals; other strings, non-empty
  arrays and objects coerce to NaN in the model.
* `TypeError` message texts are host-dependent in JavaScript; the model
  uses fixed representative messages.
* Objects are association lists without duplicate keys (JSON.parse keeps
  the last duplicate; no payload below uses duplicates).
-/

/-- A parsed JSON value, as delivered to the route handlers by the JSON
body parser.  `num` carries an `Int` (see the modelling notes). -/
inductive Json where
  | null
  | bool (b : Bool)
  | num (n : Int)
  | str (s : String)
  | arr (elems : List Json)
  | obj (fields : List (String × Json))
deriving Repr

mutual

/-- Decidable equality for `Json` (structural, matching JavaScript
`SameValueZero` on primitives; see the modelling note on objects). -/
def Json.decEq : (a b : Json) → Decidable (a = b)
  | .null, .null => .isTrue rfl
  | .null, .bool _ => .isFalse (by intro h; cases h)
  | .null, .num _ => .isFalse (by intro h; cases h)
  | .null, .str _ => .isFalse (by intro h; cases h)
  | .null, .arr _ => .isFalse (by intro h; cases h)
  | .null, .obj _ => .isFalse (by intro h; cases h)
  | .bool _, .null => .isFalse (by intro h; cases h)
  | .bool x, .bool y =>
      match (inferInstance : Decidable (x = y)) with
      | .isTrue h => .isTrue (by rw [h])
      | .isFalse h => .isFalse (by intro hh; cases hh; exact h rfl)
  | .bool _, .num _ => .isFalse (by intro h; cases h)
  | .bool _, .str _ => .isFalse (by intro h; cases h)
  | .bool _, .arr _ => .isFalse (by intro h; cases h)
  | .bool _, .obj _ => .isFalse (by intro h; cases h)
  | .num _, .null => .isFalse (by intro h; cases h)
  | .num _, .bool _ => .isFalse (by intro h; cases h)
  | .num x, .num y =>
      match (inferInstance : Decidable (x = y)) with
      | .isTrue h => .isTrue (by rw [h])
      | .isFalse h => .isFalse (by intro hh; cases hh; exact h rfl)
  | .num _, .str _ => .isFalse (by intro h; cases h)
  | .num _, .arr _ => .isFalse (by intro h; cases h)
  | .num _, .obj _ => .isFalse (by intro h; cases h)
  | .str _, .null => .isFalse (by intro h; cases h)
  | .str _, .bool _ => .isFalse (by intro h; cases h)
  | .str _, .num _ => .isFalse (by intro h; cases h)
  | .str x, .str y =>
      match (inferInstance : Decidable (x = y)) with
      | .isTrue h => .isTrue (by rw [h])
      | .isFalse h => .isFalse (by intro hh; cases hh; exact h rfl)
  | .str _, .arr _ => .isFalse (by intro h; cases h)
  | .str _, .obj _ => .isFalse (by intro h; cases h)
  | .arr _, .null => .isFalse (by intro h; cases h)
  | .arr _, .bool _ => .isFalse (by intro h; cases h)
  | .arr _, .num _ => .isFalse (by intro h; cases h)
  | .arr _, .str _ => .isFalse (by intro h; cases h)
  | .arr x, .arr y =>
      match Json.decEqList x y with
      | .isTrue h => .isTrue (by rw [h])
      | .isFalse h => .isFalse (by intro hh; cases hh; exact h rfl)
  | .arr _, .obj _ => .isFalse (by intro h; cases h)
  | .obj _, .null => .isFalse (by intro h; cases h)
  | .obj _, .bool _ => .isFalse (by intro h; cases h)
  | .obj _, .num _ => .isFalse (by intro h; cases h)
  | .obj _, .str _ => .isFalse (by intro h; cases h)
  | .obj _, .arr _ => .isFalse (by intro h; cases h)
  | .obj x, .obj y =>
      match Json.decEqFields x y with
      | .isTrue h => .isTrue (by rw [h])
      | .isFalse h => .isFalse (by intro hh; cases hh; exact h rfl)

/-- Decidable equality for lists of `Json`. -/
def Json.decEqList : (a b : List Json) → Decidable (a = b)
  | [], [] => .isTrue rfl
  | [], _ :: _ => .isFalse (by intro h; cases h)
  | _ :: _, [] => .isFalse (by intro h; cases h)
  | x :: xs, y :: ys =>
      match Json.decEq x y with
      | .isTrue h1 =>
        match Json.decEqList xs ys with
        | .isTrue h2 => .isTrue (by rw [h1, h2])
        | .isFalse h2 => .isFalse (by intro hh; cases hh; exact h2 rfl)
      | .isFalse h1 => .isFalse (by intro hh; cases hh; exact h1 rfl)

/-- Decidable equality for object field lists. -/
def Json.decEqFields : (a b : List (String × Json)) → Decidable (a = b)
  | [], [] => .isTrue rfl
  | [], _ :: _ => .isFalse (by intro h; cases h)
  | _ :: _, [] => .isFalse (by intro h; cases h)
  | (k1, v1) :: xs, (k2, v2) :: ys =>
      match (inferInstance : Decidable (k1 = k2)) with
      | .isTrue hk =>
        match Json.decEq v1 v2 with
        | .isTrue hv =>
          match Json.decEqFields xs ys with
          | .isTrue h2 => .isTrue (by rw [hk, hv, h2])
          | .isFalse h2 => .isFalse (by intro hh; cases hh; exact h2 rfl)
        | .isFalse hv => .isFalse (by intro hh; cases hh; exact hv rfl)
      | .isFalse hk => .isFalse (by intro hh; cases hh; exact hk rfl)

end

instance : DecidableEq Json := Json.decEq

/-- JavaScript truthiness of a value: `null`, `false`, `0` and `""` are
falsy; every array and object is truthy. -/
def truthy : Json → Bool
  | .null => false
  | .bool b => b
  | .num n => decide (n ≠ 0)
  | .str s => !s.data.isEmpty
  | .arr _ => true
  | .obj _ => true

/-- Truthiness of a possibly-`undefined` value (`none` models
JavaScript `undefined`, which is falsy). -/
def truthyO : Option Json → Bool
  | some v => truthy v
  | none => false

/-- Property read `v.k`: defined (`some`) only when `v` is an object
carrying the key.  Property access on non-object primitives yields
`undefined` in JavaScript (never a throw, except on `null`/`undefined`
bases, which every call site below guards explicitly). -/
def pget (v : Json) (k : String) : Option Json :=
  match v with
  | .obj fields => fields.lookup k
  | _ => none

/-- Optional-chained property read `o?.k` on a possibly-`undefined`
value: a `null`/`undefined` base short-circuits to `undefined`. -/
def pgetO (o : Option Json) (k : String) : Option Json :=
  match o with
  | some v => if v = Json.null then none else pget v k
  | none => none

/-- The JavaScript `||` operator on possibly-`undefined` values: the
first operand if truthy, otherwise the second operand as given. -/
def jsOr (a b : Option Json) : Option Json :=
  if truthyO a then a else b

/-- A `||` chain ending in a literal default: the chain's value if
truthy, otherwise the default (JavaScript returns the last operand when
all earlier operands are falsy). -/
def jsOrD (o : Option Json) (d : Json) : Json :=
  if truthyO o then o.getD d else d

/-- Index read `v[0]` (used by `tx.operations?.[0]`): first array
element, first character of a string, or an object's `"0"` property. -/
def jsIndexZero : Json → Option Json
  | .arr (x :: _) => some x
  | .arr [] => none
  | .str s =>
    match s.data with
    | c :: _ => some (.str ⟨[c]⟩)
    | [] => none
  | .obj fields => fields.lookup "0"
  | _ => none

/-- Optional-chained index read `o?.[0]`. -/
def jsIndexZeroO (o : Option Json) : Option Json :=
  match o with
  | some v => if v = Json.null then none else jsIndexZero v
  | none => none

/-- Digit-list value (base 10). -/
def natVal (ds : List Char) : Nat :=
  ds.foldl (fun a c => a * 10 + (c.toNat - 48)) 0

/-- JavaScript `ToNumber` on a string, for optionally-signed decimal
integer literals; the empty (or all-whitespace) string is `0`; other
strings are NaN (`none`) in the model (see the modelling notes). -/
def strToNumInt (s : String) : Option Int :=
  let cs := ((s.data.dropWhile Char.isWhitespace).reverse.dropWhile Char.isWhitespace).reverse
  match cs with
  | [] => some 0
  | '-' :: ds => if !ds.isEmpty && ds.all Char.isDigit then some (-(natVal ds : Int)) else none
  | '+' :: ds => if !ds.isEmpty && ds.all Char.isDigit then some ((natVal ds : Int)) else none
  | ds => if ds.all Char.isDigit then some ((natVal ds : Int)) else none

/-- The comparison `v > 0` after JavaScript numeric coercion: `NaN > 0`
is false.  Non-empty arrays and objects are modelled as NaN (see the
modelling notes); the empty array coerces to `0`, matching JavaScript. -/
def jsGtZero : Json → Bool
  | .num n => decide (0 < n)
  | .bool b => b
  | .str s =>
    match strToNumInt s with
    | some v => decide (0 < v)
    | none => false
  | .arr [] => false
  | _ => false

/-- The guard `v.length > 0`: arrays and strings report their length;
for a plain object the `length` property (if any) is compared with `0`;
other values have no `length`, and `undefined > 0` is false. -/
def jsLenPos (v : Json) : Bool :=
  match v with
  | .arr l => decide (0 < l.length)
  | .str s => decide (0 < s.data.length)
  | .obj fields =>
    match fields.lookup "length" with
    | some x => jsGtZero x
    | none => false
  | _ => false

/-- Is `pat` a prefix of `s` (character lists)? -/
def isPrefixChars : List Char → List Char → Bool
  | [], _ => true
  | _ :: _, [] => false
  | a :: as, b :: bs => a = b && isPrefixChars as bs

/-- Does `s` contain `pat` as a contiguous substring? -/
def hasSub (pat : List Char) : List Char → Bool
  | [] => isPrefixChars pat []
  | c :: rest => isPrefixChars pat (c :: rest) || hasSub pat rest

/-- JavaScript `s.includes(pat)` for strings. -/
def strContains (s pat : String) : Bool :=
  hasSub pat.data s.data

/-- JavaScript `s.startsWith(pat)` for strings. -/
def strStarts (s pat : String) : Bool :=
  isPrefixChars pat.data s.data

/-- A runtime `TypeError` raised inside `parseEventPayload` and caught
by its try/catch boundary. -/
inductive JsError where
  | nullAccess
  | notIterable
  | notAFunctionIncludes
  | notAFunctionStarts
  | keysOfNull
deriving DecidableEq, Repr

/-- The caught error's `message` property (representative texts; exact
wording is host-dependent in JavaScript). -/
def JsError.message : JsError → String
  | .nullAccess => "Cannot read properties of null"
  | .notIterable => "object is not iterable"
  | .notAFunctionIncludes => "result.includes is not a function"
  | .notAFunctionStarts => "result.startsWith is not a function"
  | .keysOfNull => "Cannot convert undefined or null to object"

/-- The `for (const x of v)` iteration source: arrays iterate their
elements, strings their characters; any other value with a positive
reported length throws `TypeError: ... is not iterable`. -/
def jsIterate : Json → Except JsError (List Json)
  | .arr l => .ok l
  | .str s => .ok (s.data.map (fun c => Json.str ⟨[c]⟩))
  | _ => .error .notIterable

/-- The canonical Event Record built by `parseEventPayload`.  The
source also stores a fresh UUID `id` and a wall-clock `timestamp`;
neither is inspected by any claim, and both are omitted from the model
(they are nondeterministic identity/time effects). -/
structure EventRecord where
  txid : Json
  sender : Json
  blockHeight : Json
  contractId : Json
  method : Json
  success : Bool
  raw : Json
  parseError : Option String := none
deriving DecidableEq, Repr

/-- The degraded placeholder record pushed by the normalizer's catch
block (source lines 213-224). -/
def degradedRecord (cid : String) (payload : Json) (msg : String) : EventRecord :=
  { txid := Json.str "parse-error"
    sender := Json.str "unknown"
    blockHeight := Json.num 0
    contractId := Json.str cid
    method := Json.str "unknown"
    success := false
    raw := payload
    parseError := some msg }

/-- Is the probed `success` field exactly the boolean `false`?  Models
the strict comparison `event.success !== false` (negated). -/
def isExplicitFalse (o : Option Json) : Bool :=
  match o with
  | some (Json.bool false) => true
  | _ => false

/-- Strategy 1 per-element extraction (source lines 111-123): one
record per event element of the `events` / `data.events` array.
Property access on a `null` element throws. -/
def extractFlatEvent (cid : String) (e : Json) : Except JsError EventRecord :=
  match e with
  | .null => .error .nullAccess
  | _ => .ok
    { txid := jsOrD (jsOr (pget e "tx_id") (jsOr (pget e "txid") (pget e "transaction_id")))
        (Json.str "unknown")
      sender := jsOrD (jsOr (pget e "sender") (jsOr (pget e "sender_address") (pget e "principal")))
        (Json.str "unknown")
      blockHeight := jsOrD (jsOr (pget e "block_height") (pget e "block")) (Json.num 0)
      contractId := jsOrD (pget e "contract_identifier") (Json.str cid)
      method := jsOrD (jsOr (pget e "method") (pget e "function_name")) (Json.str "unknown")
      success := !isExplicitFalse (pget e "success")
      raw := e
      parseError := none }

/-- Run an element extractor over an iteration, keeping the records
pushed before a throw (the source pushes into the shared `parsedEvents`
array, which the catch block does not clear). -/
def foldFault (f : α → Except JsError β) : List α → List β × Option JsError
  | [] => ([], none)
  | x :: xs =>
    match f x with
    | .error e => ([], some e)
    | .ok b =>
      let r := foldFault f xs
      (b :: r.1, r.2)

/-- Same, for extractors that already return several records plus a
possible fault (one block of the `apply` array). -/
def foldFaultFlat (f : α → List β × Option JsError) : List α → List β × Option JsError
  | [] => ([], none)
  | x :: xs =>
    let p := f x
    match p.2 with
    | some e => (p.1, some e)
    | none =>
      let r := foldFaultFlat f xs
      (p.1 ++ r.1, r.2)

/-- The value `payload.events || payload.data?.events || []` (source
line 108). -/
def eventsValueOf (p : Json) : Json :=
  jsOrD (jsOr (pget p "events") (pgetO (pget p "data") "events")) (Json.arr [])

/-- Strategy 1 (source lines 107-124): flat events at the top level or
under `data`, guarded by `eventsArray.length > 0`. -/
def strat1 (cid : String) (p : Json) : List EventRecord × Option JsError :=
  if jsLenPos (eventsValueOf p) then
    match jsIterate (eventsValueOf p) with
    | .error e => ([], some e)
    | .ok elems => foldFault (extractFlatEvent cid) elems
  else ([], none)

/-- The expression `tx.metadata || {}` (source line 138): always a
truthy value, since the empty-object fallback is itself truthy. -/
def txMetadata (tx : Json) : Json :=
  jsOrD (pget tx "metadata") (Json.obj [])

/-- The expression `tx.operations?.[0]` (source lines 139 and 145). -/
def opsFirst (tx : Json) : Option Json :=
  jsIndexZeroO (pget tx "operations")

/-- The expression `metadata || tx.operations?.[0] || tx` (source line
139): the per-transaction detail source.  Because `txMetadata` is
always truthy, the two fallbacks after it can never be selected. -/
def txDetails (tx : Json) : Json :=
  if truthy (txMetadata tx) then txMetadata tx
  else jsOrD (opsFirst tx) tx

/-- The expression `metadata.receipt?.result` (source line 161). -/
def receiptResult (tx : Json) : Option Json :=
  pgetO (pget (txMetadata tx) "receipt") "result"

/-- JavaScript `result.includes(pat)`: substring test on strings,
`SameValueZero` membership on arrays, a `TypeError` otherwise. -/
def jsIncludes (r : Json) (pat : String) : Except JsError Bool :=
  match r with
  | .str s => .ok (strContains s pat)
  | .arr xs => .ok (xs.any (fun x => decide (x = Json.str pat)))
  | _ => .error .notAFunctionIncludes

/-- JavaScript `result.startsWith(pat)`: defined on strings only (in
particular arrays have `includes` but not `startsWith`). -/
def jsStartsW (r : Json) (pat : String) : Except JsError Bool :=
  match r with
  | .str s => .ok (strStarts s pat)
  | _ => .error .notAFunctionStarts

/-- The result-string inspection of source lines 163-168, with
JavaScript `||` short-circuiting (a throw in `startsWith` is reached
only when the preceding `includes` returned false). -/
def resultCheck (r : Json) : Except JsError Bool :=
  match jsIncludes r "(err" with
  | .error e => .error e
  | .ok true => .ok false
  | .ok false =>
    match jsStartsW r "err" with
    | .error e => .error e
    | .ok true => .ok false
    | .ok false =>
      match jsIncludes r "(ok" with
      | .error e => .error e
      | .ok true => .ok true
      | .ok false =>
        match jsStartsW r "ok" with
        | .error e => .error e
        | .ok true => .ok true
        | .ok false => .ok true

/-- Success extraction for the block-apply strategy (source lines
157-169): explicit `metadata.success === false` wins; else a truthy
`metadata.receipt?.result` is inspected; else the default `true`. -/
def txSuccessCode (tx : Json) : Except JsError Bool :=
  if isExplicitFalse (pget (txMetadata tx) "success") then .ok false
  else
    match receiptResult tx with
    | some r => if truthy r then resultCheck r else .ok true
    | none => .ok true

/-- Sender extraction for the block-apply strategy (source lines
142-145). -/
def txSenderOf (tx : Json) : Json :=
  jsOrD
    (jsOr (pget (txMetadata tx) "sender")
      (jsOr (pget (txMetadata tx) "sender_address")
        (pgetO (pgetO (opsFirst tx) "account") "address")))
    (Json.str "unknown")

/-- Method extraction for the block-apply strategy (source lines
147-155). -/
def txMethodOf (tx : Json) : Json :=
  jsOrD
    (jsOr (pgetO (pgetO (pgetO (pget (txMetadata tx) "kind") "data") "contract_call") "function_name")
      (jsOr (pgetO (pget (txMetadata tx) "contract_call") "function_name")
        (pget (txDetails tx) "function_name")))
    (Json.str "unknown")

/-- Transaction-id extraction for the block-apply strategy (source line
173). -/
def txIdOf (tx : Json) : Json :=
  jsOrD
    (jsOr (pgetO (pget tx "transaction_identifier") "hash")
      (jsOr (pget (txMetadata tx) "tx_id") (pget (txDetails tx) "txid")))
    (Json.str "unknown")

/-- Per-transaction extraction of the block-apply strategy (source
lines 136-181).  Accessing `tx.metadata` on a `null` transaction
throws; the only other throwing accesses are inside the success
inspection. -/
def txExtract (cid : String) (bh : Json) (tx : Json) : Except JsError EventRecord :=
  match tx with
  | .null => .error .nullAccess
  | _ =>
    match txSuccessCode tx with
    | .error e => .error e
    | .ok succ => .ok
      { txid := txIdOf tx
        sender := txSenderOf tx
        blockHeight := bh
        contractId := Json.str cid
        method := txMethodOf tx
        success := succ
        raw := tx
        parseError := none }

/-- Block-height extraction (source line 131). -/
def blockHeightOf (b : Json) : Json :=
  jsOrD
    (jsOr (pgetO (pget b "block_identifier") "index")
      (jsOr (pget b "block_height") (pgetO (pget b "metadata") "block_height")))
    (Json.num 0)

/-- The value `block.transactions || []` (source line 132). -/
def blockTransactionsValue (b : Json) : Json :=
  jsOrD (pget b "transactions") (Json.arr [])

/-- Per-block extraction of the block-apply strategy (source lines
130-183).  A `null` block throws at `block.block_identifier`; the
`for (const tx of transactions)` loop is not guarded by a length check,
so a truthy non-iterable `transactions` value throws. -/
def blockExtract (cid : String) (b : Json) : List EventRecord × Option JsError :=
  match b with
  | .null => ([], some .nullAccess)
  | _ =>
    match jsIterate (blockTransactionsValue b) with
    | .error e => ([], some e)
    | .ok txs => foldFault (txExtract cid (blockHeightOf b)) txs

/-- The value `payload.apply || payload.event?.apply || []` (source
line 127). -/
def applyValueOf (p : Json) : Json :=
  jsOrD (jsOr (pget p "apply") (pgetO (pget p "event") "apply")) (Json.arr [])

/-- Strategy 2 (source lines 126-184): block/apply format, guarded by
`apply.length > 0`. -/
def strat2 (cid : String) (p : Json) : List EventRecord × Option JsError :=
  if jsLenPos (applyValueOf p) then
    match jsIterate (applyValueOf p) with
    | .error e => ([], some e)
    | .ok blocks => foldFaultFlat (blockExtract cid) blocks
  else ([], none)

/-- The value `payload.transactions || []` (source line 187). -/
def transactionsValueOf (p : Json) : Json :=
  jsOrD (pget p "transactions") (Json.arr [])

/-- Strategy 3 per-element extraction (source lines 190-202). -/
def extractDirectTx (cid : String) (p : Json) (tx : Json) : Except JsError EventRecord :=
  match tx with
  | .null => .error .nullAccess
  | _ => .ok
    { txid := jsOrD (jsOr (pget tx "tx_id") (jsOr (pget tx "txid") (pget tx "transaction_id")))
        (Json.str "unknown")
      sender := jsOrD (jsOr (pget tx "sender") (pget tx "sender_address")) (Json.str "unknown")
      blockHeight := jsOrD (jsOr (pget tx "block_height") (pget p "block_height")) (Json.num 0)
      contractId := jsOrD (pget tx "contract_identifier") (Json.str cid)
      method := jsOrD (jsOr (pget tx "function_name") (pget tx "method")) (Json.str "unknown")
      success := !isExplicitFalse (pget tx "success")
      raw := tx
      parseError := none }

/-- Strategy 3 (source lines 186-203): direct transactions array,
guarded by `transactions.length > 0`. -/
def strat3 (cid : String) (p : Json) : List EventRecord × Option JsError :=
  if jsLenPos (transactionsValueOf p) then
    match jsIterate (transactionsValueOf p) with
    | .error e => ([], some e)
    | .ok txs => foldFault (extractDirectTx cid p) txs
  else ([], none)

/-- The try-block body of `parseEventPayload` (source lines 101-209):
the three strategies run in order over the shared `parsedEvents` array;
a throw aborts the remaining work but keeps what was already pushed.
`Object.keys(payload)` on line 103 throws first when the payload is
`null`. -/
def extractAll (cid : String) (p : Json) : List EventRecord × Option JsError :=
  match p with
  | .null => ([], some .keysOfNull)
  | _ =>
    let r1 := strat1 cid p
    match r1.2 with
    | some e => (r1.1, some e)
    | none =>
      let r2 := strat2 cid p
      match r2.2 with
      | some e => (r1.1 ++ r2.1, some e)
      | none =>
        let r3 := strat3 cid p
        (r1.1 ++ r2.1 ++ r3.1, r3.2)

/-- `parseEventPayload` (source lines 98-228): the catch block appends
one degraded record to whatever was already pushed; without a fault the
extracted records are returned as-is. -/
def parseEventPayload (cid : String) (p : Json) : List EventRecord :=
  let r := extractAll cid p
  match r.2 with
  | none => r.1
  | some e => r.1 ++ [degradedRecord cid p e.message]

/-- Does the value have a callable `slice` method?  Strings and arrays
do; numbers, booleans and plain objects do not, so the log line
`event.txid.slice(0, 16)` (source line 260) throws a `TypeError` on
them. -/
def sliceable : Json → Bool
  | .str _ => true
  | .arr _ => true
  | _ => false

/-- The webhook handler's per-record loop (source lines 259-264): each
record is logged (`txid.slice` / `sender.slice`, which throws on
non-sliceable values, aborting the loop before the current record is
stored) and then unshifted onto the head of the store. -/
def ingestLoop : List EventRecord → List EventRecord → List EventRecord × Bool
  | st, [] => (st, true)
  | st, e :: rest =>
    if sliceable e.txid && sliceable e.sender then ingestLoop (e :: st) rest
    else (st, false)

/-- The trim loop `while (events.length > MAX_EVENTS) events.pop()`
(source lines 267-269): popping from the tail until the size is at most
the capacity keeps exactly the first `cap` records. -/
def trimTo (cap : Nat) (l : List EventRecord) : List EventRecord :=
  l.take cap

/-- One fault-free batch append as the handler performs it: unshift
each record in order, then trim.  (`MAX_EVENTS = 100` in the source;
the capacity is a parameter here, instantiated at `100` for the
deployed configuration and at other values for the spec's capacity
scenarios.) -/
def storeAppend (cap : Nat) (st : List EventRecord) (recs : List EventRecord) : List EventRecord :=
  trimTo cap (recs.foldl (fun acc e => e :: acc) st)

/-- Outcome of one `POST /webhook` invocation: the store afterwards,
whether the handler responded 200 (`ok = true`) or fell into its catch
block and responded 500, and the reported `eventsProcessed` count. -/
structure WebhookOutcome where
  store : List EventRecord
  ok : Bool
  processed : Option Nat
deriving DecidableEq, Repr

/-- The `POST /webhook` handler (source lines 247-284).  The log line
`payload.chainhook?.is_streaming_blocks` throws on a `null` body before
normalization runs; afterwards the parsed records are unshifted one by
one (each preceded by the throwing-capable log line) and the store is
trimmed only when the loop finished without a throw. -/
def handleWebhook (cid : String) (cap : Nat) (st : List EventRecord) (payload : Json) :
    WebhookOutcome :=
  match payload with
  | .null => { store := st, ok := false, processed := none }
  | _ =>
    let news := parseEventPayload cid payload
    let r := ingestLoop st news
    if r.2 then { store := trimTo cap r.1, ok := true, processed := some news.length }
    else { store := r.1, ok := false, processed := none }

/-- JavaScript `parseInt` with no radix argument, for possibly-absent
inputs: leading whitespace is skipped, an optional sign and a leading
run of decimal digits are read, trailing junk is ignored, and `none`
models NaN.  (The hexadecimal `0x` prefix form is not modelled; no
claim involves it.) -/
def parseIntJS : Option String → Option Int
  | none => none
  | some s =>
    let cs := s.data.dropWhile Char.isWhitespace
    match cs with
    | '-' :: rest =>
      let ds := rest.takeWhile Char.isDigit
      if ds.isEmpty then none else some (-(natVal ds : Int))
    | '+' :: rest =>
      let ds := rest.takeWhile Char.isDigit
      if ds.isEmpty then none else some ((natVal ds : Int))
    | rest =>
      let ds := rest.takeWhile Char.isDigit
      if ds.isEmpty then none else some ((natVal ds : Int))

/-- The effective limit `Math.min(parseInt(req.query.limit) || 50,
MAX_EVENTS)` of source line 290: NaN and `0` fall back to the default
`50`; the result is capped at the retention capacity `100`. -/
def effectiveLimit (q : Option String) : Int :=
  let p :=
    match parseIntJS q with
    | some v => if v = 0 then (50 : Int) else v
    | none => (50 : Int)
  min p 100

/-- JavaScript `l.slice(0, n)`: a non-negative end takes a prefix; a
negative end counts from the tail. -/
def jsSlice (l : List EventRecord) (n : Int) : List EventRecord :=
  if 0 ≤ n then l.take n.toNat else l.take ((l.length : Int) + n).toNat

/-- The `GET /events` handler's record selection (source lines
289-306).  The response maps each selected record to its external
projection (dropping `raw` and `parseError`); the projection is a
per-record relabelling that preserves count and order, and the model
returns the selected records themselves. -/
def getEvents (st : List EventRecord) (q : Option String) : List EventRecord :=
  jsSlice st (effectiveLimit q)

/-- An insertion-ordered counter lookup (JavaScript object key read). -/
def lookupCount : List (Json × Nat) → Json → Option Nat
  | [], _ => none
  | (k, n) :: rest, m => if k = m then some n else lookupCount rest m

/-- One step of `methods[event.method] = (methods[event.method] || 0) + 1`
(source line 317).  Method values are kept as `Json` keys; JavaScript
coerces object keys to strings, which agrees with this model whenever
the methods are strings (as every claim assumes). -/
def bumpCount : List (Json × Nat) → Json → List (Json × Nat)
  | [], m => [(m, 1)]
  | (k, n) :: rest, m =>
    if k = m then (k, n + 1) :: rest else (k, n) :: bumpCount rest m

/-- The per-method histogram built by the `/stats` loop (source lines
314-318). -/
def buildCounts (methods : List Json) : List (Json × Nat) :=
  methods.foldl bumpCount []

/-- The `/stats` response payload (source lines 320-330). -/
structure Stats where
  totalInteractions : Nat
  uniqueSenders : Nat
  successfulTransactions : Nat
  failedTransactions : Nat
  methodBreakdown : List (Json × Nat)
deriving DecidableEq, Repr

/-- The `GET /stats` computation (source lines 311-331).  `new
Set(events.map(e => e.sender)).size` counts distinct values under
`SameValueZero`, which is structural equality on the primitive values
every claim uses (for object-valued senders JavaScript would compare
references; no claim involves them); `List.dedup` keeps one
representative per distinct value. -/
def computeStats (evs : List EventRecord) : Stats :=
  { totalInteractions := evs.length
    uniqueSenders := (evs.map (fun e => e.sender)).dedup.length
    successfulTransactions := (evs.filter (fun e => e.success)).length
    failedTransactions := evs.length - (evs.filter (fun e => e.success)).length
    methodBreakdown := buildCounts (evs.map (fun e => e.method)) }

/-- Follows the spec's words (§4.1, flat-events strategy): each
attribute is selected by a fixed priority list of alternate field
names, the first truthy candidate winning, with the stated sentinel
defaults; `success` defaults to `true` unless the field is explicitly
`false`. -/
def specFlatRecord (cid : String) (e : Json) : EventRecord :=
  { txid := jsOrD (jsOr (pget e "tx_id") (jsOr (pget e "txid") (pget e "transaction_id")))
      (Json.str "unknown")
    sender := jsOrD (jsOr (pget e "sender") (jsOr (pget e "sender_address") (pget e "principal")))
      (Json.str "unknown")
    blockHeight := jsOrD (jsOr (pget e "block_height") (pget e "block")) (Json.num 0)
    contractId := jsOrD (pget e "contract_identifier") (Json.str cid)
    method := jsOrD (jsOr (pget e "method") (pget e "function_name")) (Json.str "unknown")
    success := !isExplicitFalse (pget e "success")
    raw := e
    parseError := none }

/-- Follows the spec's words (§4.1 item 2 / claim C5): an explicit
`false` metadata flag yields `false`; else a textual result containing
`"(err"` or starting with `"err"` yields `false`, containing `"(ok"`
or starting with `"ok"` yields `true`; else `true`. -/
def specTxSuccess (tx : Json) : Bool :=
  if isExplicitFalse (pget (txMetadata tx) "success") then false
  else
    match receiptResult tx with
    | some (Json.str s) =>
      if strContains s "(err" || strStarts s "err" then false
      else if strContains s "(ok" || strStarts s "ok" then true
      else true
    | _ => true

/-- The transactions list a well-formed block carries (the code
iterates `block.transactions || []`). -/
def txsOf (b : Json) : List Json :=
  match blockTransactionsValue b with
  | .arr l => l
  | _ => []

/-- Is the value a JSON object? -/
def Json.isObj : Json → Bool
  | .obj _ => true
  | _ => false

/-- Is the value a JSON string? -/
def Json.isStr : Json → Bool
  | .str _ => true
  | _ => false

/-- A well-formed block-apply transaction (claim C5): an object whose
`metadata.receipt?.result`, when truthy, is textual.  Under this
condition the per-transaction extraction cannot throw. -/
def wfTx (tx : Json) : Bool :=
  tx.isObj &&
    (match receiptResult tx with
     | some r => !truthy r || r.isStr
     | none => true)

/-- A well-formed block (claim C5): an object whose `transactions`
value is an array of well-formed transactions. -/
def wfBlock (b : Json) : Bool :=
  b.isObj &&
    (match blockTransactionsValue b with
     | .arr l => l.all wfTx
     | _ => false)

/-- A concrete record with string-valued fields, as produced for
ordinary payloads (used by concrete store scenarios). -/
def sampleRec (t : String) : EventRecord :=
  { txid := Json.str t
    sender := Json.str "unknown"
    blockHeight := Json.num 0
    contractId := Json.str "C"
    method := Json.str "unknown"
    success := true
    raw := Json.null }

theorem foldFault_map (f : α → Except JsError β) (g : α → β) :
    ∀ l : List α, (∀ x ∈ l, f x = .ok (g x)) → foldFault f l = (l.map g, none)
  | [], _ => rfl
  | x :: xs, h => by
    have hx := h x (by simp)
    have ih := foldFault_map f g xs (fun y hy => h y (by simp [hy]))
    simp [foldFault, hx, ih]

theorem foldFault_mem (f : α → Except JsError β) :
    ∀ l : List α, ∀ r ∈ (foldFault f l).1, ∃ x ∈ l, f x = .ok r := by
  intro l
  induction l with
  | nil => intro r hr; simp [foldFault] at hr
  | cons x xs ih =>
    intro r hr
    simp only [foldFault] at hr
    rcases hfx : f x with e | b <;> rw [hfx] at hr
    · simp at hr
    · simp only [List.mem_cons] at hr
      rcases hr with rfl | hr
      · exact ⟨x, by simp, hfx⟩
      · obtain ⟨y, hy, hfy⟩ := ih r hr
        exact ⟨y, by simp [hy], hfy⟩

theorem foldFaultFlat_map (f : α → List β × Option JsError) (g : α → List β) :
    ∀ l : List α, (∀ x ∈ l, f x = (g x, none)) → foldFaultFlat f l = ((l.map g).flatten, none)
  | [], _ => rfl
  | x :: xs, h => by
    have hx := h x (by simp)
    have ih := foldFaultFlat_map f g xs (fun y hy => h y (by simp [hy]))
    simp [foldFaultFlat, hx, ih]

theorem foldFaultFlat_mem (f : α → List β × Option JsError) :
    ∀ l : List α, ∀ r ∈ (foldFaultFlat f l).1, ∃ x ∈ l, r ∈ (f x).1 := by
  intro l
  induction l with
  | nil => intro r hr; simp [foldFaultFlat] at hr
  | cons x xs ih =>
    intro r hr
    simp only [foldFaultFlat] at hr
    rcases hfx : (f x).2 with _ | e <;> rw [hfx] at hr
    · simp only [List.mem_append] at hr
      rcases hr with hr | hr
      · exact ⟨x, by simp, hr⟩
      · obtain ⟨y, hy, hfy⟩ := ih r hr
        exact ⟨y, by simp [hy], hfy⟩
    · exact ⟨x, by simp, hr⟩

theorem take_append_take (n : Nat) (a b : List α) :
    List.take n (a ++ List.take n b) = List.take n (a ++ b) := by
  rw [List.take_append_eq_append_take, List.take_append_eq_append_take,
    List.take_take, Nat.min_eq_left (Nat.sub_le n a.length)]

theorem foldl_cons_rev (st : List EventRecord) :
    ∀ l : List EventRecord, l.foldl (fun acc e => e :: acc) st = l.reverse ++ st := by
  intro l
  induction l generalizing st with
  | nil => simp
  | cons x xs ih => simp [List.foldl_cons, ih]

theorem ingestLoop_ok (news : List EventRecord)
    (h : ∀ e ∈ news, sliceable e.txid && sliceable e.sender) :
    ∀ st, ingestLoop st news = (news.foldl (fun acc e => e :: acc) st, true) := by
  induction news with
  | nil => intro st; rfl
  | cons x xs ih =>
    intro st
    have hx := h x (by simp)
    simp only [ingestLoop, hx, if_true, List.foldl_cons]
    exact ih (fun y hy => h y (by simp [hy])) (x :: st)

theorem storeAppend_take (cap : Nat) (st recs : List EventRecord) :
    storeAppend cap st recs = List.take cap (recs.reverse ++ st) := by
  rw [storeAppend, foldl_cons_rev, trimTo]

theorem foldl_storeAppend (cap : Nat) :
    ∀ (batches : List (List EventRecord)) (s : List EventRecord), s.length ≤ cap →
      List.foldl (storeAppend cap) s batches = List.take cap (batches.flatten.reverse ++ s)
  | [], s, hs => by simpa using (List.take_of_length_le hs).symm
  | b :: bs, s, _hs => by
    have hlen : (storeAppend cap s b).length ≤ cap := by
      rw [storeAppend_take]; exact (List.length_take _ _).trans_le (Nat.min_le_left _ _)
    rw [List.foldl_cons, foldl_storeAppend cap bs _ hlen, storeAppend_take,
      take_append_take, List.flatten_cons, List.reverse_append, List.append_assoc]

theorem lookupCount_bump (m : Json) :
    ∀ acc : List (Json × Nat), lookupCount (bumpCount acc m) m =
      some ((lookupCount acc m).getD 0 + 1) := by
  intro acc
  induction acc with
  | nil => simp [bumpCount, lookupCount]
  | cons kv rest ih =>
    obtain ⟨k, n⟩ := kv
    by_cases hk : k = m
    · subst hk; simp [bumpCount, lookupCount]
    · simp [bumpCount, lookupCount, hk, ih]

theorem lookupCount_bump_ne (m m' : Json) (hne : m' ≠ m) :
    ∀ acc : List (Json × Nat), lookupCount (bumpCount acc m) m' = lookupCount acc m' := by
  have hmm : m ≠ m' := Ne.symm hne
  intro acc
  induction acc with
  | nil => simp [bumpCount, lookupCount, hmm]
  | cons kv rest ih =>
    obtain ⟨k, n⟩ := kv
    by_cases hk : k = m
    · have hk2 : k ≠ m' := by rw [hk]; exact hmm
      simp [bumpCount, lookupCount, hk, hk2, hmm]
    · simp [bumpCount, lookupCount, hk, ih]

theorem foldl_bump_getD (m : Json) :
    ∀ (l : List Json) (acc : List (Json × Nat)),
      (lookupCount (l.foldl bumpCount acc) m).getD 0 =
        (lookupCount acc m).getD 0 + l.countP (fun x => decide (x = m))
  | [], acc => by simp
  | x :: xs, acc => by
    rw [List.foldl_cons, foldl_bump_getD m xs]
    by_cases hx : x = m
    · subst hx
      rw [lookupCount_bump]
      simp [List.countP_cons]
      omega
    · rw [lookupCount_bump_ne x m]
      · simp [List.countP_cons, hx]
      · exact fun h => hx h.symm

theorem foldl_bump_isSome (m : Json) :
    ∀ (l : List Json) (acc : List (Json × Nat)),
      (lookupCount (l.foldl bumpCount acc) m).isSome =
        ((lookupCount acc m).isSome || l.any (fun x => decide (x = m)))
  | [], acc => by simp
  | x :: xs, acc => by
    rw [List.foldl_cons, foldl_bump_isSome m xs]
    by_cases hx : x = m
    · subst hx
      rw [lookupCount_bump]
      simp
    · rw [lookupCount_bump_ne x m (fun h => hx h.symm)]
      simp [hx]

theorem extractFlatEvent_ok (cid : String) (e : Json) (h : e.isObj = true) :
    extractFlatEvent cid e = .ok (specFlatRecord cid e) := by
  cases e <;> simp_all [Json.isObj] <;> rfl

theorem resultCheck_str (s : String) :
    resultCheck (.str s) = .ok
      (if strContains s "(err" then false
       else if strStarts s "err" then false
       else if strContains s "(ok" then true
       else if strStarts s "ok" then true
       else true) := by
  by_cases h1 : strContains s "(err" = true <;>
    by_cases h2 : strStarts s "err" = true <;>
      by_cases h3 : strContains s "(ok" = true <;>
        by_cases h4 : strStarts s "ok" = true <;>
          simp_all [resultCheck, jsIncludes, jsStartsW]

theorem txSuccessCode_wf (tx : Json)
    (h : (match receiptResult tx with
          | some r => !truthy r || r.isStr
          | none => true) = true) :
    txSuccessCode tx = .ok (specTxSuccess tx) := by
  rw [txSuccessCode, specTxSuccess]
  by_cases hf : isExplicitFalse (pget (txMetadata tx) "success") = true
  · simp [hf]
  · simp only [Bool.not_eq_true] at hf
    simp only [hf, if_false, Bool.false_eq_true]
    rcases hr : receiptResult tx with _ | r
    · rfl
    · rw [hr] at h
      rcases r with _ | b | n | s | l | fields
      · simp [truthy]
      · cases b
        · simp [truthy]
        · simp [truthy, Json.isStr] at h
      · by_cases hn : n = 0
        · subst hn; simp [truthy]
        · simp [truthy, hn, Json.isStr] at h
      · by_cases hs : s.data.isEmpty
        · have hdata : s.data = [] := by simpa [List.isEmpty_iff] using hs
          have h1 : strContains s "(err" = false := by
            simp only [strContains, hdata]; decide
          have h2 : strStarts s "err" = false := by
            simp only [strStarts, hdata]; decide
          have h3 : strContains s "(ok" = false := by
            simp only [strContains, hdata]; decide
          have h4 : strStarts s "ok" = false := by
            simp only [strStarts, hdata]; decide
          have htr : truthy (Json.str s) = false := by simp [truthy, hs]
          simp [htr, h1, h2, h3, h4]
        · have htr : truthy (Json.str s) = true := by simp [truthy, hs]
          simp only [htr, if_true, resultCheck_str]
          by_cases h1 : strContains s "(err" = true <;>
            by_cases h2 : strStarts s "err" = true <;>
              by_cases h3 : strContains s "(ok" = true <;>
                by_cases h4 : strStarts s "ok" = true <;>
                  simp_all
      · simp [truthy, Json.isStr] at h
      · simp [truthy, Json.isStr] at h

theorem txExtract_ok (cid : String) (bh : Json) (tx : Json) (h : wfTx tx = true) :
    txExtract cid bh tx = .ok
      { txid := txIdOf tx
        sender := txSenderOf tx
        blockHeight := bh
        contractId := Json.str cid
        method := txMethodOf tx
        success := specTxSuccess tx
        raw := tx
        parseError := none } := by
  rw [wfTx, Bool.and_eq_true] at h
  have hsc := txSuccessCode_wf tx h.2
  rcases tx with _ | b | n | s | l | fields <;> simp_all [Json.isObj] <;>
    simp [txExtract, hsc]

theorem blockExtract_wf (cid : String) (b : Json) (h : wfBlock b = true) :
    blockExtract cid b =
      ((txsOf b).map (fun tx =>
        { txid := txIdOf tx
          sender := txSenderOf tx
          blockHeight := blockHeightOf b
          contractId := Json.str cid
          method := txMethodOf tx
          success := specTxSuccess tx
          raw := tx
          parseError := none }), none) := by
  rw [wfBlock, Bool.and_eq_true] at h
  obtain ⟨hobj, htx⟩ := h
  rcases harr : blockTransactionsValue b with _ | bb | n | s | l | fields <;>
    rw [harr] at htx <;> try simp_all
  have hall : ∀ tx ∈ l, wfTx tx = true := htx
  have hmap := foldFault_map (txExtract cid (blockHeightOf b))
    (fun tx =>
      { txid := txIdOf tx
        sender := txSenderOf tx
        blockHeight := blockHeightOf b
        contractId := Json.str cid
        method := txMethodOf tx
        success := specTxSuccess tx
        raw := tx
        parseError := none }) l
    (fun tx htm => txExtract_ok cid (blockHeightOf b) tx (hall tx htm))
  rcases b with _ | bb | n | s | bl | bfields <;> simp_all [Json.isObj] <;>
    simp [blockExtract, harr, jsIterate, txsOf, hmap]

theorem strat1_events_arr (cid : String) (p : Json) (elems : List Json)
    (hev : eventsValueOf p = Json.arr elems) (h : ∀ e ∈ elems, e.isObj = true) :
    strat1 cid p = (elems.map (specFlatRecord cid), none) := by
  cases elems with
  | nil => rw [strat1, hev]; rfl
  | cons x xs =>
    rw [strat1, hev]
    have hpos : jsLenPos (Json.arr (x :: xs)) = true := by simp [jsLenPos]
    simp only [hpos, if_true, jsIterate]
    exact foldFault_map _ _ _ (fun e he => extractFlatEvent_ok cid e (h e he))

/-- C4: for every payload shaped as `{events: [...]}` or
`{data: {events: [...]}}` with N well-formed (object) elements,
normalization yields exactly N records, each mapped by the fixed
priority lists of §4.1 (`tx_id`, then `txid`, then `transaction_id`,
else `"unknown"`, and analogously for the other attributes, the first
truthy candidate winning), with `success` true unless the `success`
field is explicitly `false` — the mapping `specFlatRecord` states those
rules in the spec's words. -/
theorem flat_events_priority_extraction :
    ∀ (cid : String) (elems : List Json), (∀ e ∈ elems, e.isObj = true) →
      parseEventPayload cid (Json.obj [("events", Json.arr elems)]) =
          elems.map (specFlatRecord cid)
        ∧ parseEventPayload cid (Json.obj [("data", Json.obj [("events", Json.arr elems)])]) =
          elems.map (specFlatRecord cid)
        ∧ (parseEventPayload cid (Json.obj [("events", Json.arr elems)])).length = elems.length := by
  intro cid elems h
  have hs1a := strat1_events_arr cid (Json.obj [("events", Json.arr elems)]) elems rfl h
  have hs1b := strat1_events_arr cid
    (Json.obj [("data", Json.obj [("events", Json.arr elems)])]) elems rfl h
  have h2a : strat2 cid (Json.obj [("events", Json.arr elems)]) = ([], none) := rfl
  have h3a : strat3 cid (Json.obj [("events", Json.arr elems)]) = ([], none) := rfl
  have h2b : strat2 cid (Json.obj [("data", Json.obj [("events", Json.arr elems)])]) =
    ([], none) := rfl
  have h3b : strat3 cid (Json.obj [("data", Json.obj [("events", Json.arr elems)])]) =
    ([], none) := rfl
  refine ⟨?_, ?_, ?_⟩ <;>
    simp [parseEventPayload, extractAll, hs1a, hs1b, h2a, h3a, h2b, h3b]

/-- Witness for C4 at a concrete two-element payload. -/
theorem flat_events_priority_extraction_witness :
    parseEventPayload "C"
        (Json.obj [("events", Json.arr
          [Json.obj [("txid", Json.str "t1"), ("success", Json.bool false)],
           Json.obj [("tx_id", Json.str "t2"), ("sender", Json.str "S2")]])]) =
      [specFlatRecord "C" (Json.obj [("txid", Json.str "t1"), ("success", Json.bool false)]),
       specFlatRecord "C" (Json.obj [("tx_id", Json.str "t2"), ("sender", Json.str "S2")])] :=
  (flat_events_priority_extraction "C"
    [Json.obj [("txid", Json.str "t1"), ("success", Json.bool false)],
     Json.obj [("tx_id", Json.str "t2"), ("sender", Json.str "S2")]]
    (by decide)).1

/-- C5: for every payload shaped as `{apply: [block, ...]}` whose
well-formed blocks collectively contain N transactions, normalization
yields exactly N records whose `success` follows the spec's rule
(`specTxSuccess`: explicit `false` metadata flag → false; else a
textual receipt result containing `"(err"` or starting with `"err"` →
false, containing `"(ok"` or starting with `"ok"` → true; else true);
and the concrete scenario-3 payload yields exactly one record with
`blockHeight = 100`, `sender = "SP1"`, `success = false`. -/
theorem apply_strategy_counts_and_success :
    (∀ (cid : String) (blocks : List Json), (∀ b ∈ blocks, wfBlock b = true) →
      (parseEventPayload cid (Json.obj [("apply", Json.arr blocks)])).length =
          (blocks.map (fun b => (txsOf b).length)).sum
        ∧ (parseEventPayload cid (Json.obj [("apply", Json.arr blocks)])).map
            (fun r => r.success) =
          (blocks.map (fun b => (txsOf b).map specTxSuccess)).flatten)
    ∧ (parseEventPayload "C" (Json.obj [("apply", Json.arr [Json.obj
        [("block_identifier", Json.obj [("index", Json.num 100)]),
         ("transactions", Json.arr [Json.obj
           [("metadata", Json.obj
             [("sender", Json.str "SP1"),
              ("receipt", Json.obj [("result", Json.str "(err 1)")])])]])]])])).map
        (fun r => (r.blockHeight, r.sender, r.success)) =
      [(Json.num 100, Json.str "SP1", false)] := by
  constructor
  · intro cid blocks h
    have h1 : strat1 cid (Json.obj [("apply", Json.arr blocks)]) = ([], none) := rfl
    have h3 : strat3 cid (Json.obj [("apply", Json.arr blocks)]) = ([], none) := rfl
    have h2 : strat2 cid (Json.obj [("apply", Json.arr blocks)]) =
        ((blocks.map (fun b => (txsOf b).map (fun tx =>
          { txid := txIdOf tx
            sender := txSenderOf tx
            blockHeight := blockHeightOf b
            contractId := Json.str cid
            method := txMethodOf tx
            success := specTxSuccess tx
            raw := tx
            parseError := none }))).flatten, none) := by
      cases blocks with
      | nil => rfl
      | cons b bs =>
        rw [strat2]
        have happ : applyValueOf (Json.obj [("apply", Json.arr (b :: bs))]) =
          Json.arr (b :: bs) := rfl
        rw [happ]
        have hpos : jsLenPos (Json.arr (b :: bs)) = true := by simp [jsLenPos]
        simp only [hpos, if_true, jsIterate]
        exact foldFaultFlat_map _ _ _ (fun x hx => blockExtract_wf cid x (h x hx))
    constructor
    · simp [parseEventPayload, extractAll, h1, h2, h3, Function.comp_def]
    · simp [parseEventPayload, extractAll, h1, h2, h3, List.map_flatten, List.map_map,
        Function.comp_def]
  · rfl

/-- Witness for C5's general part at the scenario-3 block list. -/
theorem apply_strategy_counts_and_success_witness :
    (parseEventPayload "C" (Json.obj [("apply", Json.arr [Json.obj
        [("block_identifier", Json.obj [("index", Json.num 100)]),
         ("transactions", Json.arr [Json.obj
           [("metadata", Json.obj
             [("sender", Json.str "SP1"),
              ("receipt", Json.obj [("result", Json.str "(err 1)")])])]])]])])).length =
      ([Json.obj
        [("block_identifier", Json.obj [("index", Json.num 100)]),
         ("transactions", Json.arr [Json.obj
           [("metadata", Json.obj
             [("sender", Json.str "SP1"),
              ("receipt", Json.obj [("result", Json.str "(err 1)")])])]])]].map
        (fun b => (txsOf b).length)).sum :=
  (apply_strategy_counts_and_success.1 "C"
    [Json.obj
      [("block_identifier", Json.obj [("index", Json.num 100)]),
       ("transactions", Json.arr [Json.obj
         [("metadata", Json.obj
           [("sender", Json.str "SP1"),
            ("receipt", Json.obj [("result", Json.str "(err 1)")])])]])]]
    (by decide)).1

theorem extractFlatEvent_pe (cid : String) (x : Json) (r : EventRecord)
    (h : extractFlatEvent cid x = .ok r) : r.parseError = none := by
  cases x <;> simp [extractFlatEvent] at h <;> simp [← h]

theorem extractDirectTx_pe (cid : String) (p x : Json) (r : EventRecord)
    (h : extractDirectTx cid p x = .ok r) : r.parseError = none := by
  cases x <;> simp [extractDirectTx] at h <;> simp [← h]

theorem txExtract_pe (cid : String) (bh x : Json) (r : EventRecord)
    (h : txExtract cid bh x = .ok r) : r.parseError = none := by
  cases x <;> simp only [txExtract] at h <;>
    first
      | exact absurd h (by simp)
      | (rcases hsc : txSuccessCode _ with e | b <;> rw [hsc] at h <;> simp at h <;> simp [← h])

theorem strat1_pe (cid : String) (p : Json) :
    ∀ r ∈ (strat1 cid p).1, r.parseError = none := by
  intro r hr
  rw [strat1] at hr
  by_cases hg : jsLenPos (eventsValueOf p) = true
  · simp only [hg, if_true] at hr
    rcases hit : jsIterate (eventsValueOf p) with e | elems <;> rw [hit] at hr
    · simp at hr
    · obtain ⟨x, _, hfx⟩ := foldFault_mem _ _ r hr
      exact extractFlatEvent_pe cid x r hfx
  · simp only [Bool.not_eq_true] at hg
    simp [hg] at hr

theorem blockExtract_pe (cid : String) (b : Json) :
    ∀ r ∈ (blockExtract cid b).1, r.parseError = none := by
  intro r hr
  cases b <;> simp only [blockExtract] at hr <;> try simp at hr
  all_goals
    (rcases hit : jsIterate (blockTransactionsValue _) with e | txs <;> rw [hit] at hr
     · simp at hr
     · obtain ⟨x, _, hfx⟩ := foldFault_mem _ _ r hr
       exact txExtract_pe cid _ x r hfx)

theorem strat2_pe (cid : String) (p : Json) :
    ∀ r ∈ (strat2 cid p).1, r.parseError = none := by
  intro r hr
  rw [strat2] at hr
  by_cases hg : jsLenPos (applyValueOf p) = true
  · simp only [hg, if_true] at hr
    rcases hit : jsIterate (applyValueOf p) with e | blocks <;> rw [hit] at hr
    · simp at hr
    · obtain ⟨b, _, hb⟩ := foldFaultFlat_mem _ _ r hr
      exact blockExtract_pe cid b r hb
  · simp only [Bool.not_eq_true] at hg
    simp [hg] at hr

theorem strat3_pe (cid : String) (p : Json) :
    ∀ r ∈ (strat3 cid p).1, r.parseError = none := by
  intro r hr
  rw [strat3] at hr
  by_cases hg : jsLenPos (transactionsValueOf p) = true
  · simp only [hg, if_true] at hr
    rcases hit : jsIterate (transactionsValueOf p) with e | txs <;> rw [hit] at hr
    · simp at hr
    · obtain ⟨x, _, hfx⟩ := foldFault_mem _ _ r hr
      exact extractDirectTx_pe cid p x r hfx
  · simp only [Bool.not_eq_true] at hg
    simp [hg] at hr

theorem extractAll_pe (cid : String) (p : Json) :
    ∀ r ∈ (extractAll cid p).1, r.parseError = none := by
  intro r hr
  have hmem : r ∈ (strat1 cid p).1 ∨ r ∈ (strat2 cid p).1 ∨ r ∈ (strat3 cid p).1 := by
    cases p <;> simp only [extractAll] at hr <;> try simp at hr
    all_goals
      (rcases h1 : (strat1 cid _).2 with _ | e <;> rw [h1] at hr
       · rcases h2 : (strat2 cid _).2 with _ | e <;> rw [h2] at hr
         · simp only [List.mem_append] at hr
           tauto
         · simp only [List.mem_append] at hr
           tauto
       · tauto)
  rcases hmem with hm | hm | hm
  · exact strat1_pe cid p r hm
  · exact strat2_pe cid p r hm
  · exact strat3_pe cid p r hm

/-- C1 (amended): normalization is a total function (never raises);
when the extraction faults, the records already pushed before the
fault are retained and exactly one degraded record — `transactionId
"parse-error"`, `success = false`, `raw` = the original payload, and a
non-empty `parseError` — is appended after them (it is the only record
exactly when the fault preceded any successful extraction); without a
fault no record carries a `parseError`. -/
theorem parse_fault_appends_degraded :
    ∀ (cid : String) (p : Json),
      ((extractAll cid p).2 = none → parseEventPayload cid p = (extractAll cid p).1)
      ∧ (∀ e : JsError, (extractAll cid p).2 = some e →
          parseEventPayload cid p = (extractAll cid p).1 ++ [degradedRecord cid p e.message]
            ∧ (degradedRecord cid p e.message).txid = Json.str "parse-error"
            ∧ (degradedRecord cid p e.message).success = false
            ∧ (degradedRecord cid p e.message).raw = p
            ∧ (degradedRecord cid p e.message).parseError = some e.message
            ∧ e.message ≠ "")
      ∧ (∀ r ∈ (extractAll cid p).1, r.parseError = none) := by
  intro cid p
  refine ⟨?_, ?_, extractAll_pe cid p⟩
  · intro h
    simp [parseEventPayload, h]
  · intro e h
    refine ⟨by simp [parseEventPayload, h], rfl, rfl, rfl, rfl, ?_⟩
    cases e <;> simp [JsError.message]

/-- Witness for C1 at a payload whose second event element is `null`
(the extraction faults there, after one successful record). -/
theorem parse_fault_appends_degraded_witness :
    parseEventPayload "C"
        (Json.obj [("events", Json.arr [Json.obj [("tx_id", Json.str "a")], Json.null])]) =
      (extractAll "C"
        (Json.obj [("events", Json.arr [Json.obj [("tx_id", Json.str "a")], Json.null])])).1 ++
        [degradedRecord "C"
          (Json.obj [("events", Json.arr [Json.obj [("tx_id", Json.str "a")], Json.null])])
          JsError.nullAccess.message] :=
  ((parse_fault_appends_degraded "C"
    (Json.obj [("events", Json.arr [Json.obj [("tx_id", Json.str "a")], Json.null])])).2.1
    JsError.nullAccess (by rfl)).1

/-- Counterexample to C1 as stated: on this faulting payload the
partial results are not discarded — the parse returns two records, the
first of which is the successfully extracted one (no `parseError`),
so the result is not exactly one degraded record. -/
theorem parse_fault_counterexample :
    ((extractAll "C"
        (Json.obj [("events", Json.arr [Json.obj [("tx_id", Json.str "a")], Json.null])])).2).isSome
        = true
      ∧ (parseEventPayload "C"
          (Json.obj [("events", Json.arr [Json.obj [("tx_id", Json.str "a")], Json.null])])).map
            (fun r => (r.txid, r.parseError.isSome)) =
        [(Json.str "a", false), (Json.str "parse-error", true)] := by
  exact ⟨rfl, rfl⟩

/-- C7 (amended): for every non-`null` payload in which the computed
events value (`events || data.events || []`), apply value
(`apply || event.apply || []`) and transactions value
(`transactions || []`) all lack a positive length — in particular when
those fields are absent, falsy, or empty arrays — normalization
returns zero records and does not raise; the payload `{}` yields zero
records. -/
theorem unrecognized_shape_yields_empty :
    (∀ (cid : String) (p : Json), p ≠ Json.null →
      jsLenPos (eventsValueOf p) = false →
      jsLenPos (applyValueOf p) = false →
      jsLenPos (transactionsValueOf p) = false →
      parseEventPayload cid p = [])
    ∧ (∀ cid : String, parseEventPayload cid (Json.obj []) = []) := by
  constructor
  · intro cid p hnull h1 h2 h3
    have hs1 : strat1 cid p = ([], none) := by simp [strat1, h1]
    have hs2 : strat2 cid p = ([], none) := by simp [strat2, h2]
    have hs3 : strat3 cid p = ([], none) := by simp [strat3, h3]
    cases p <;> simp_all [parseEventPayload, extractAll]
  · intro cid
    rfl

/-- Witness for C7 at a non-empty object payload with none of the
recognized fields. -/
theorem unrecognized_shape_yields_empty_witness :
    parseEventPayload "C" (Json.obj [("chainhook", Json.obj []), ("foo", Json.num 1)]) = [] :=
  unrecognized_shape_yields_empty.1 "C"
    (Json.obj [("chainhook", Json.obj []), ("foo", Json.num 1)])
    (by decide) (by rfl) (by rfl) (by rfl)

/-- Counterexample to C7 as stated: this payload has no events array
(its `events` field is the string `"ab"`), no apply array and no
transactions array, yet normalization yields two records (the string is
iterated character by character), not zero. -/
theorem unrecognized_shape_counterexample :
    pget (Json.obj [("events", Json.str "ab")]) "events" = some (Json.str "ab")
      ∧ (parseEventPayload "C" (Json.obj [("events", Json.str "ab")])).length = 2 := by
  exact ⟨rfl, rfl⟩

/-- C2 (amended): a webhook ingest whose records all carry sliceable
(string-valued) `txid` and `sender` — so the per-record log line cannot
throw — stores the batch and trims, and then the store never exceeds
the capacity; after any sequence of such batch appends the store holds
exactly the `cap` most recently appended records in newest-first order
(`List.take cap` of the reversed full append history); with capacity 2,
appending `[r1]` and then `[r2, r3]` leaves `[r3, r2]`. -/
theorem store_bound_and_retention :
    (∀ (cid : String) (cap : Nat) (st : List EventRecord) (p : Json), p ≠ Json.null →
      (∀ r ∈ parseEventPayload cid p, sliceable r.txid && sliceable r.sender) →
      handleWebhook cid cap st p =
        { store := storeAppend cap st (parseEventPayload cid p)
          ok := true
          processed := some (parseEventPayload cid p).length })
    ∧ (∀ (cap : Nat) (st recs : List EventRecord), (storeAppend cap st recs).length ≤ cap)
    ∧ (∀ (cap : Nat) (batches : List (List EventRecord)),
        List.foldl (storeAppend cap) [] batches = List.take cap batches.flatten.reverse)
    ∧ storeAppend 2 (storeAppend 2 [] [sampleRec "r1"]) [sampleRec "r2", sampleRec "r3"] =
        [sampleRec "r3", sampleRec "r2"] := by
  refine ⟨?_, ?_, ?_, by decide⟩
  · intro cid cap st p hnull hsafe
    have hloop := ingestLoop_ok (parseEventPayload cid p) hsafe st
    cases p <;> simp_all [handleWebhook, storeAppend]
  · intro cap st recs
    rw [storeAppend_take]
    exact (List.length_take _ _).trans_le (Nat.min_le_left _ _)
  · intro cap batches
    rw [foldl_storeAppend cap batches [] (by simp)]
    simp

/-- Witness for C2's handler part at a concrete single-event payload. -/
theorem store_bound_and_retention_witness :
    handleWebhook "C" 100 [] (Json.obj [("events", Json.arr [Json.obj [("tx_id", Json.str "a")]])]) =
      { store := storeAppend 100 []
          (parseEventPayload "C" (Json.obj [("events", Json.arr [Json.obj [("tx_id", Json.str "a")]])]))
        ok := true
        processed := some (parseEventPayload "C"
          (Json.obj [("events", Json.arr [Json.obj [("tx_id", Json.str "a")]])])).length } :=
  store_bound_and_retention.1 "C" 100 []
    (Json.obj [("events", Json.arr [Json.obj [("tx_id", Json.str "a")]])])
    (by decide) (by decide)

/-- Counterexample to C2 as stated: with a full store of 100 records, a
payload whose second event carries a numeric `tx_id` makes the log line
`event.txid.slice(0, 16)` throw after the first record was already
unshifted; the handler's catch responds 500 and the trim loop never
runs, so after the ingest completes the store holds 101 > 100
records. -/
theorem store_bound_counterexample :
    (handleWebhook "C" 100 (List.replicate 100 (sampleRec "old"))
        (Json.obj [("events", Json.arr
          [Json.obj [("tx_id", Json.str "a")], Json.obj [("tx_id", Json.num 5)]])])).store.length
        = 101
      ∧ (handleWebhook "C" 100 (List.replicate 100 (sampleRec "old"))
          (Json.obj [("events", Json.arr
            [Json.obj [("tx_id", Json.str "a")], Json.obj [("tx_id", Json.num 5)]])])).ok
        = false := by
  exact ⟨rfl, rfl⟩

/-- C3 (amended): the handler unshifts each record of a batch in
iteration order, so a batch `[b1, ..., bk]` appears reversed — the
store becomes `take cap ([bk, ..., b1] ++ previous)`; when nothing is
evicted the whole reversed batch precedes every previously present
record (so across batches, later-appended records appear first). -/
theorem batch_order_reversed_newest_first :
    (∀ (cap : Nat) (st recs : List EventRecord),
      storeAppend cap st recs = List.take cap (recs.reverse ++ st))
    ∧ (∀ (cap : Nat) (st recs : List EventRecord), recs.length + st.length ≤ cap →
        storeAppend cap st recs = recs.reverse ++ st) := by
  constructor
  · exact storeAppend_take
  · intro cap st recs h
    rw [storeAppend_take]
    exact List.take_of_length_le (by simpa using h)

/-- Witness for C3's no-eviction part at a concrete two-record append. -/
theorem batch_order_reversed_newest_first_witness :
    storeAppend 5 [sampleRec "p"] [sampleRec "q1", sampleRec "q2"] =
      [sampleRec "q2", sampleRec "q1", sampleRec "p"] := by
  have h := batch_order_reversed_newest_first.2 5 [sampleRec "p"]
    [sampleRec "q1", sampleRec "q2"] (by decide)
  simpa using h

/-- Counterexample to C3 as stated: appending the batch `[a, b]` to an
empty store leaves iteration order `[b, a]`, not the claimed batch
order `[a, b]`. -/
theorem batch_order_counterexample :
    ((handleWebhook "C" 100 [] (Json.obj [("events", Json.arr
        [Json.obj [("tx_id", Json.str "a")], Json.obj [("tx_id", Json.str "b")]])])).store.map
      (fun r => r.txid)) = [Json.str "b", Json.str "a"]
      ∧ [Json.str "b", Json.str "a"] ≠ [Json.str "a", Json.str "b"] := by
  exact ⟨rfl, by decide⟩

/-- C6 (code evaluation): the detail-source fallback chain
`metadata || tx.operations?.[0] || tx` is dead code — `tx.metadata || {}`
is always truthy, so `txDetails` always equals the metadata value and
the operations-array / transaction-object fallbacks are never selected.
Consequently a transaction without a `metadata` sub-object but with
`function_name` and `txid` on the transaction itself is extracted with
the sentinel `"unknown"` for both method and transaction id, contrary
to the claim. -/
theorem txdetails_fallback_dead :
    (∀ tx : Json, txDetails tx = txMetadata tx)
      ∧ (parseEventPayload "C" (Json.obj [("apply", Json.arr [Json.obj
          [("transactions", Json.arr [Json.obj
            [("function_name", Json.str "transfer"), ("txid", Json.str "T")]])]])])).map
          (fun r => (r.method, r.txid)) = [(Json.str "unknown", Json.str "unknown")] := by
  constructor
  · intro tx
    rw [txDetails]
    have htr : truthy (txMetadata tx) = true := by
      rw [txMetadata]
      rcases hp : pget tx "metadata" with _ | v
      · simp [jsOrD, truthyO, truthy]
      · by_cases hv : truthy v = true
        · simp [jsOrD, truthyO, hv]
        · simp only [Bool.not_eq_true] at hv
          have hvo : truthyO (some v) = false := by simp [truthyO, hv]
          simp [jsOrD, hvo, truthy]
    simp [htr]
  · rfl

/-- C8: the statistics computation returns the total record count, the
number of distinct sender values (the sentinel `"unknown"` counting as
one value when present), the count of successful records, the failure
count as total minus successes, and a method histogram mapping each
observed method value to its occurrence count (absent for unobserved
methods); the concrete three-record store of scenario 1 yields
`{total: 3, uniqueSenders: 2, successCount: 2, failureCount: 1,
methodCounts: {x: 2, y: 1}}`. -/
theorem stats_characterization :
    (∀ evs : List EventRecord,
      (computeStats evs).totalInteractions = evs.length
        ∧ (computeStats evs).uniqueSenders = (evs.map (fun e => e.sender)).toFinset.card
        ∧ (computeStats evs).successfulTransactions = evs.countP (fun e => e.success)
        ∧ (computeStats evs).failedTransactions = evs.length - evs.countP (fun e => e.success)
        ∧ (∀ m : Json, (lookupCount (computeStats evs).methodBreakdown m).getD 0 =
            (evs.map (fun e => e.method)).countP (fun x => decide (x = m)))
        ∧ (∀ m : Json, (lookupCount (computeStats evs).methodBreakdown m).isSome = true ↔
            m ∈ evs.map (fun e => e.method)))
    ∧ computeStats
        [{ txid := Json.str "t1", sender := Json.str "A", blockHeight := Json.num 0,
           contractId := Json.str "C", method := Json.str "x", success := true,
           raw := Json.null, parseError := none },
         { txid := Json.str "t2", sender := Json.str "A", blockHeight := Json.num 0,
           contractId := Json.str "C", method := Json.str "x", success := true,
           raw := Json.null, parseError := none },
         { txid := Json.str "t3", sender := Json.str "B", blockHeight := Json.num 0,
           contractId := Json.str "C", method := Json.str "y", success := false,
           raw := Json.null, parseError := none }] =
      { totalInteractions := 3, uniqueSenders := 2, successfulTransactions := 2,
        failedTransactions := 1,
        methodBreakdown := [(Json.str "x", 2), (Json.str "y", 1)] } := by
  refine ⟨?_, by decide⟩
  intro evs
  refine ⟨rfl, ?_, ?_, ?_, ?_, ?_⟩
  · rw [computeStats]
    exact (List.card_toFinset _).symm
  · rw [computeStats]
    exact (List.countP_eq_length_filter _ _).symm
  · rw [computeStats]
    rw [List.countP_eq_length_filter]
  · intro m
    rw [computeStats]
    simp only [buildCounts]
    rw [foldl_bump_getD m (evs.map (fun e => e.method)) []]
    simp [lookupCount]
  · intro m
    rw [computeStats]
    simp only [buildCounts]
    rw [foldl_bump_isSome m (evs.map (fun e => e.method)) []]
    simp [lookupCount, List.any_eq_true]

/-- C9 (amended): for every requested limit that parses (per
`parseInt`) to a positive integer `n`, the `/events` read returns the
first `min(n, 100)` records of the store — hence never more than
`min(n, 100)`, however large `n` is. -/
theorem events_limit_clamped_positive :
    ∀ (st : List EventRecord) (s : String) (n : Int),
      parseIntJS (some s) = some n → 1 ≤ n →
      getEvents st (some s) = st.take (min n 100).toNat
        ∧ (getEvents st (some s)).length ≤ min n.toNat 100 := by
  intro st s n hp hn
  have hne : n ≠ 0 := by omega
  have hel : effectiveLimit (some s) = min n 100 := by
    simp [effectiveLimit, hp, hne]
  have hnn : (0 : Int) ≤ min n 100 := by omega
  refine ⟨?_, ?_⟩
  · rw [getEvents, jsSlice, hel, if_pos hnn]
  · rw [getEvents, jsSlice, hel, if_pos hnn]
    have htn : (min n 100).toNat = min n.toNat 100 := by omega
    rw [htn]
    exact (List.length_take _ _).trans_le (Nat.min_le_left _ _)

/-- Witness for C9 at the limit string `"250"` over a three-record
store (the effective limit is clamped to 100). -/
theorem events_limit_clamped_positive_witness :
    getEvents (List.replicate 3 (sampleRec "w")) (some "250") =
        (List.replicate 3 (sampleRec "w")).take (min (250 : Int) 100).toNat
      ∧ (getEvents (List.replicate 3 (sampleRec "w")) (some "250")).length ≤
        min (250 : Int).toNat 100 :=
  events_limit_clamped_positive (List.replicate 3 (sampleRec "w")) "250" 250
    (by rfl) (by decide)

/-- Counterexample to C9 as stated: the requested limit `-5` parses to
a negative number, which `Array.prototype.slice` treats as an offset
from the tail — over a six-record store one record is returned, while
the claimed bound `min(limit, C) = -5` cannot bound any record count
and the claimed selection (the first `min(limit, size, C)` records)
would be empty. -/
theorem events_negative_limit_counterexample :
    (getEvents (List.replicate 6 (sampleRec "r")) (some "-5")).length = 1
      ∧ ¬((1 : Int) ≤ min (-5) 100)
      ∧ getEvents (List.replicate 6 (sampleRec "r")) (some "-5") ≠ [] := by
  exact ⟨rfl, by decide, by decide⟩

/-- C10: a `limit` query value of `0` or any string that does not parse
to a number is treated exactly like an absent limit — the default of 50
applies, and up to 50 records are returned. -/
theorem limit_zero_or_nan_defaults :
    ∀ (st : List EventRecord) (s : String),
      parseIntJS (some s) = none ∨ parseIntJS (some s) = some 0 →
      getEvents st (some s) = getEvents st none
        ∧ getEvents st none = st.take 50 := by
  intro st s h
  have hel : effectiveLimit (some s) = 50 := by
    rcases h with h | h <;> simp [effectiveLimit, h]
  have heln : effectiveLimit none = 50 := rfl
  constructor
  · rw [getEvents, getEvents, hel, heln]
  · rw [getEvents, heln, jsSlice, if_pos (by omega)]
    simp [Int.toNat_ofNat]

/-- Witness for C10 at the unparseable limit `"abc"` and the zero limit
`"0"` over a sixty-record store (both return the default 50 records). -/
theorem limit_zero_or_nan_defaults_witness :
    (getEvents (List.replicate 60 (sampleRec "v")) (some "abc") =
        getEvents (List.replicate 60 (sampleRec "v")) none
      ∧ getEvents (List.replicate 60 (sampleRec "v")) none =
        (List.replicate 60 (sampleRec "v")).take 50)
      ∧ getEvents (List.replicate 60 (sampleRec "v")) (some "0") =
        getEvents (List.replicate 60 (sampleRec "v")) none :=
  ⟨limit_zero_or_nan_defaults (List.replicate 60 (sampleRec "v")) "abc" (Or.inl rfl),
   (limit_zero_or_nan_defaults (List.replicate 60 (sampleRec "v")) "0" (Or.inr rfl)).1⟩

/-- Witness for C8 at a one-record store. -/
theorem stats_characterization_witness :
    (computeStats [sampleRec "s"]).uniqueSenders =
      ([sampleRec "s"].map (fun e => e.sender)).toFinset.card :=
  (stats_characterization.1 [sampleRec "s"]).2.1

/-- Witness for C6's dead-fallback part at a metadata-free object. -/
theorem txdetails_fallback_dead_witness :
    txDetails (Json.obj [("function_name", Json.str "transfer")]) =
      txMetadata (Json.obj [("function_name", Json.str "transfer")]) :=
  txdetails_fallback_dead.1 (Json.obj [("function_name", Json.str "transfer")])
